import Mathlib

/-!
Verification of the VRM viewer component (`VRMViewer`): a shallow embedding of
its model/animation/expression state handling, the FBX-to-VRM bone-retargeting
heuristic, and the loader callbacks, together with theorems about them.
JavaScript numbers are modelled as rationals, JavaScript objects used as string
maps as insertion-ordered association lists, and `three.js` objects by the
fields the component reads.
-/

namespace MRehab

/-- A `THREE.Object3D` bone node; the component only reads its `name`. -/
structure Bone where
  name : String
deriving DecidableEq, Repr

/-- Keyframe track kinds, distinguished by `instanceof` checks in the code. -/
inductive TrackKind where
  | quaternion
  | vector
  | other
deriving DecidableEq, Repr

/-- A `THREE.KeyframeTrack`: a name, key times and values (numbers as `ℚ`). -/
structure Track where
  name : String
  times : List ℚ
  values : List ℚ
  kind : TrackKind
deriving DecidableEq, Repr

/-- A `THREE.AnimationClip`. -/
structure Clip where
  name : String
  duration : ℚ
  tracks : List Track
deriving DecidableEq, Repr

/-- A `THREE.AnimationAction`: the clip it plays and whether it was set to
loop (`setLoop(THREE.LoopRepeat, Infinity)`, or the three.js default). -/
structure Action where
  clip : Clip
  looping : Bool
deriving DecidableEq, Repr

/-- A loaded VRM model: an identity for its scene object, the humanoid
(`getRawBoneNode` results for each standard bone name, `none` when the
humanoid itself is null), and the expression manager's weights (`none` when
the model has no expression manager). -/
structure VrmModel where
  id : Nat
  humanoid : Option (List (String × Option Bone))
  exprMgr : Option (List (String × ℚ))
deriving DecidableEq, Repr

/-- The mutable state owned by the component's effect: `currentVrm`, `mixer`
(modelled by whether one exists), `activeAction`, the ids of VRM scenes added
to the THREE scene, and the React state `error`, `isLoading`,
`activeExpression`. -/
structure ViewerState where
  currentVrm : Option VrmModel
  mixer : Bool
  activeAction : Option Action
  sceneModels : List Nat
  error : String
  isLoading : Bool
  activeExpression : String
deriving DecidableEq, Repr

/- ## JavaScript string primitives (ASCII semantics) -/

/-- `startsWithL s pat`: `pat` is a leading segment of `s`. -/
def startsWithL : List Char → List Char → Bool
  | _, [] => true
  | [], _ :: _ => false
  | c :: cs, d :: ds => (c == d) && startsWithL cs ds

/-- Occurrence check used to model `String.prototype.includes`. -/
def containsL (pat : List Char) : List Char → Bool
  | [] => pat.isEmpty
  | c :: cs => startsWithL (c :: cs) pat || containsL pat cs

/-- JavaScript `s.includes(pat)`. -/
def strIncludes (s pat : String) : Bool := containsL pat.data s.data

/-- JavaScript `s.toLowerCase()` (ASCII). -/
def lowerStr (s : String) : String := String.mk (s.data.map Char.toLower)

/-- JavaScript `s.endsWith(suf)`. -/
def endsWithL (s suf : String) : Bool := startsWithL s.data.reverse suf.data.reverse

/-- Helper for `split(".")`: cut at every separator occurrence. -/
def splitOnCharAux (sep : Char) : List Char → List Char → List String
  | [], acc => [String.mk acc.reverse]
  | c :: cs, acc =>
    if c == sep then String.mk acc.reverse :: splitOnCharAux sep cs []
    else splitOnCharAux sep cs (c :: acc)

/-- JavaScript `s.split(".")`. -/
def jsSplitDot (s : String) : List String := splitOnCharAux '.' s.data []

/- ## JavaScript object-as-record operations (insertion order preserved) -/

/-- Property read `m[k]` on a `Record<string, Object3D>`. -/
def recordGet (m : List (String × Bone)) (k : String) : Option Bone :=
  (m.find? (fun p => p.1 == k)).map (fun p => p.2)

/-- Property write `m[k] = v`: update in place when present, else append. -/
def recordInsert (m : List (String × Bone)) (k : String) (v : Bone) : List (String × Bone) :=
  if (m.find? (fun p => p.1 == k)).isSome then
    m.map (fun p => if p.1 == k then (k, v) else p)
  else
    m ++ [(k, v)]

/- ## Bone-mapping construction (part_000 lines 336-381) -/

/-- One iteration of the humanoid-bone loop: `getRawBoneNode` returned `node`;
a non-`Object3D` (null) node throws, otherwise the bone is registered under
its name, its lowercase name, and the common FBX aliases. -/
def addBoneEntries (m : List (String × Bone)) (boneName : String) (node : Option Bone) :
    Except String (List (String × Bone)) :=
  match node with
  | none => Except.error "VRM bone is not an Object3D"
  | some vrmBone =>
    let m1 := recordInsert m boneName vrmBone
    let lowerName := lowerStr boneName
    let m2 := recordInsert m1 lowerName vrmBone
    let m3 := if strIncludes lowerName "spine" then recordInsert m2 "spine" vrmBone else m2
    let m4 := if strIncludes lowerName "neck" then recordInsert m3 "neck" vrmBone else m3
    let m5 := if strIncludes lowerName "head" then recordInsert m4 "head" vrmBone else m4
    let m6 :=
      if strIncludes lowerName "lefthand" then
        recordInsert (recordInsert m5 "hand_l" vrmBone) "left_hand" vrmBone
      else m5
    let m7 :=
      if strIncludes lowerName "righthand" then
        recordInsert (recordInsert m6 "hand_r" vrmBone) "right_hand" vrmBone
      else m6
    Except.ok m7

/-- Fold of `addBoneEntries` over the humanoid bone table. -/
def buildBoneMappingGo (m : List (String × Bone)) :
    List (String × Option Bone) → Except String (List (String × Bone))
  | [] => Except.ok m
  | (boneName, node) :: rest =>
    match addBoneEntries m boneName node with
    | Except.error e => Except.error e
    | Except.ok m2 => buildBoneMappingGo m2 rest

/-- The bone mapping built inside the FBX callback; a null humanoid yields the
empty mapping, a missing bone node throws. -/
def buildBoneMapping : Option (List (String × Option Bone)) → Except String (List (String × Bone))
  | none => Except.ok []
  | some bones => buildBoneMappingGo [] bones

/- ## Track retargeting (part_000 lines 390-449) -/

/-- The `for (const [key, bone] of Object.entries(boneMapping))` loop: first
entry whose key, lowercased, includes or is included in the lowercased FBX
bone name. -/
def findMatch : List (String × Bone) → String → Option Bone
  | [], _ => none
  | (key, bone) :: rest, fbxNameLower =>
    if strIncludes fbxNameLower (lowerStr key) || strIncludes (lowerStr key) fbxNameLower then
      some bone
    else
      findMatch rest fbxNameLower

/-- Retarget one keyframe track: split the name on `"."`, look the bone part
up in the mapping (exact, then substring match), and rebuild the track under
the matched VRM bone node's name. -/
def mapTrack (boneMapping : List (String × Bone)) (track : Track) : Option Track :=
  let trackSplit := jsSplitDot track.name
  if trackSplit.length < 2 then none
  else
    let fbxBoneName := trackSplit.headD ""
    let property := trackSplit.getD 1 ""
    let vrmBone : Option Bone :=
      match recordGet boneMapping fbxBoneName with
      | some b => some b
      | none => findMatch boneMapping (lowerStr fbxBoneName)
    match vrmBone with
    | none => none
    | some b =>
      some { name := b.name ++ "." ++ property, times := track.times,
             values := track.values, kind := track.kind }

/-- The `clip.tracks.forEach` loop: tracks that map produce one new track each,
the others produce none. -/
def retargetTracks (boneMapping : List (String × Bone)) (tracks : List Track) : List Track :=
  tracks.filterMap (mapTrack boneMapping)

/- ## Claim-side description of the retargeting step (C1) -/

/-- Case-insensitive inclusion, as worded by the claim. -/
def specIncl (a b : String) : Bool := strIncludes (lowerStr a) (lowerStr b)

/-- Modelled from the claim's words: match the source bone name against the
table first by exact key lookup, then by case-insensitive substring inclusion
in either direction against each key. -/
def specMatchBone (boneMapping : List (String × Bone)) (bone : String) : Option Bone :=
  match boneMapping.find? (fun p => p.1 == bone) with
  | some p => some p.2
  | none =>
    (boneMapping.find? (fun p => specIncl bone p.1 || specIncl p.1 bone)).map (fun p => p.2)

/-- Modelled from the claim's words: a track whose name contains a `"."`
separator is remapped by taking the part before the first `"."` as the source
bone name; on a match the new track is named `<bone node name>.<property>`
and keeps the original times and values; otherwise no track is produced. -/
def specMapTrack (boneMapping : List (String × Bone)) (track : Track) : Option Track :=
  match jsSplitDot track.name with
  | bone :: property :: _ =>
    (specMatchBone boneMapping bone).map
      (fun b => { track with name := b.name ++ "." ++ property })
  | _ => none

theorem findMatch_eq_find (m : List (String × Bone)) (lower : String) :
    findMatch m lower =
      (m.find? (fun p =>
        strIncludes lower (lowerStr p.1) || strIncludes (lowerStr p.1) lower)).map
        (fun p => p.2) := by
  induction m with
  | nil => rfl
  | cons hd tl ih =>
    obtain ⟨k, b⟩ := hd
    by_cases hc : (strIncludes lower (lowerStr k) || strIncludes (lowerStr k) lower) = true
    · simp [findMatch, List.find?, hc]
    · simp only [Bool.not_eq_true] at hc
      simp [findMatch, List.find?, hc, ih]

theorem mapTrack_eq_spec (m : List (String × Bone)) (track : Track) :
    mapTrack m track = specMapTrack m track := by
  unfold mapTrack specMapTrack specMatchBone recordGet
  cases h : jsSplitDot track.name with
  | nil => simp [h]
  | cons b rest =>
    cases rest with
    | nil => simp [h]
    | cons p rest2 =>
      have hlen : ¬ ((b :: p :: rest2).length < 2) := by
        simp only [List.length_cons]
        omega
      simp only [h, hlen, if_false, List.headD, List.getD]
      rw [findMatch_eq_find]
      cases hf : List.find? (fun q => q.1 == b) m with
      | none =>
        simp only [Option.map_none, specIncl]
        cases hg : List.find?
            (fun q => strIncludes (lowerStr b) (lowerStr q.1) ||
              strIncludes (lowerStr q.1) (lowerStr b)) m with
        | none => simp
        | some pr => simp
      | some pr => simp

/-- Claim C1: the bone-retargeting heuristic remaps each keyframe track whose
name contains a `"."` by matching the part before the first `"."` against the
bone-mapping table (exact key lookup first, then case-insensitive substring
inclusion in either direction), emitting a track named
`<matched VRM bone node name>.<property>` with times and values unchanged;
tracks with no `"."` or no matching key produce no output track. -/
theorem C1_track_retargeting (boneMapping : List (String × Bone)) (track : Track)
    (tracks : List Track) :
    mapTrack boneMapping track = specMapTrack boneMapping track ∧
    retargetTracks boneMapping tracks = tracks.filterMap (specMapTrack boneMapping) := by
  constructor
  · exact mapTrack_eq_spec boneMapping track
  · unfold retargetTracks
    congr 1
    funext t
    exact mapTrack_eq_spec boneMapping t

/- ## Expression handling (part_000 lines 98-122 and 592-631) -/

/-- The fixed expression preset list `RENDER_CONFIG.expressions`. -/
def RENDER_CONFIG_expressions : List String :=
  ["neutral", "happy", "angry", "sad", "relaxed", "surprised",
   "aa", "ih", "ou", "ee", "oh", "blink", "blinkLeft", "blinkRight"]

/-- `RENDER_CONFIG.expressionWeight`, the default weight for `setExpression`. -/
def RENDER_CONFIG_expressionWeight : ℚ := 1

/-- `expressionManager.setValue(name, weight)`: update the expression's weight
when the expression exists, otherwise do nothing. -/
def mgrSetValue (mg : List (String × ℚ)) (name : String) (weight : ℚ) : List (String × ℚ) :=
  mg.map (fun p => if p.1 == name then (p.1, weight) else p)

/-- Read an expression's weight from the manager (first binding wins). -/
def mgrGet : List (String × ℚ) → String → Option ℚ
  | [], _ => none
  | p :: rest, name => if p.1 == name then some p.2 else mgrGet rest name

/-- The `RENDER_CONFIG.expressions.forEach` loop of `resetExpressions`:
set every preset's weight to 0. -/
def resetAllWeights (mg : List (String × ℚ)) : List (String × ℚ) :=
  RENDER_CONFIG_expressions.foldl (fun acc e => mgrSetValue acc e 0) mg

/-- `resetExpressions` (part_000 lines 616-631): no-op without a model or
expression manager; otherwise zero every preset weight and clear
`activeExpression`. -/
def resetExpressionsV (st : ViewerState) : ViewerState :=
  match st.currentVrm with
  | none => st
  | some vrm =>
    match vrm.exprMgr with
    | none => st
    | some mg =>
      { st with currentVrm := some { vrm with exprMgr := some (resetAllWeights mg) },
                activeExpression := "" }

/-- `setExpression` (part_000 lines 592-613): no-op without a model or
expression manager; otherwise reset all presets, set the requested expression
to the given weight, and record it as active. -/
def setExpressionV (st : ViewerState) (expression : String) (weight : ℚ) : ViewerState :=
  match st.currentVrm with
  | none => st
  | some vrm =>
    match vrm.exprMgr with
    | none => st
    | some mg =>
      let mg2 := mgrSetValue (resetAllWeights mg) expression weight
      { st with currentVrm := some { vrm with exprMgr := some mg2 },
                activeExpression := expression }

/-- `setExpression` with the weight argument omitted. -/
def setExpressionDefaultV (st : ViewerState) (expression : String) : ViewerState :=
  setExpressionV st expression RENDER_CONFIG_expressionWeight

/- ## Animation functions (part_000 lines 295-590) -/

/-- `url.toLowerCase().endsWith(".fbx")`. -/
def animIsFBX (url : String) : Bool := endsWithL (lowerStr url) ".fbx"

/-- The synchronous part of `playAnimation` (lines 295-302): return unless a
model is loaded and a url given; fade out and null the previous action. -/
def playAnimationStartV (st : ViewerState) (animationUrl : String) : ViewerState :=
  if st.currentVrm.isNone || animationUrl == "" then st
  else { st with activeAction := none }

/-- `stopAnimation` (lines 585-590). -/
def stopAnimationV (st : ViewerState) : ViewerState :=
  { st with activeAction := none }

/-- The fallback clip duration. -/
def fallbackDuration : ℚ := 2

/-- The `.position` keyframe track of the fallback clip. -/
def fallbackTrack : Track :=
  { name := ".position",
    times := [0, fallbackDuration / 2, fallbackDuration],
    values := [0, 0, 0, 0, 1/10, 0, 0, 0, 0],
    kind := TrackKind.vector }

/-- The clip played when no track could be mapped (lines 457-469). -/
def fallbackClip : Clip :=
  { name := "fallback-motion", duration := fallbackDuration, tracks := [fallbackTrack] }

/-- The FBX load success callback (lines 315-507): guard on `currentVrm`,
ensure a mixer, report an empty animation list, build the bone mapping
(errors land in the catch block and set the error message), retarget the first
clip's tracks, and play either the fallback clip or the retargeted clip as a
looping action. -/
def onFbxLoadedV (st : ViewerState) (animations : List Clip) : ViewerState :=
  match st.currentVrm with
  | none => st
  | some vrm =>
    let st2 := { st with mixer := true }
    match animations with
    | [] => { st2 with error := "No animation found in the FBX file" }
    | clip :: _ =>
      match buildBoneMapping vrm.humanoid with
      | Except.error msg => { st2 with error := "Error applying animation: " ++ msg }
      | Except.ok boneMapping =>
        let tracks := retargetTracks boneMapping clip.tracks
        if tracks.isEmpty then
          { st2 with activeAction := some { clip := fallbackClip, looping := true } }
        else
          let newClip : Clip :=
            { name := "retargeted-animation", duration := clip.duration, tracks := tracks }
          { st2 with activeAction := some { clip := newClip, looping := true } }

/-- The GLTF animation load success callback (lines 535-557): guard on
`currentVrm`, ensure a mixer, silently return when the file has no animation,
otherwise play its first clip directly. -/
def onGltfAnimLoadedV (st : ViewerState) (animations : List Clip) : ViewerState :=
  match st.currentVrm with
  | none => st
  | some _ =>
    let st2 := { st with mixer := true }
    match animations with
    | [] => st2
    | clip :: _ => { st2 with activeAction := some { clip := clip, looping := true } }

/- ## Loader failure values -/

/-- The value a loader error callback receives: an `Error` instance, a
non-`Error` object with a `message` property, or anything else. -/
inductive LoadFailure where
  | errObj (message : String)
  | objWithMessage (message : String)
  | other
deriving DecidableEq, Repr

/-- The message-extraction chain shared by all three error callbacks. -/
def failureMessage : LoadFailure → String
  | LoadFailure.errObj m => m
  | LoadFailure.objWithMessage m => m
  | LoadFailure.other => "Unknown error"

/-- The animation loaders' error callback (lines 515-528 and 566-579). -/
def onAnimLoadError (st : ViewerState) (f : LoadFailure) : ViewerState :=
  { st with error := "Failed to load animation: " ++ failureMessage f }

/- ## loadVRM (part_000 lines 652-769) -/

/-- The synchronous part of `loadVRM`: return on an empty url; set loading,
clear the error, remove and null the previous model, reset mixer and action,
and call `resetExpressions` (at which point `currentVrm` is already null). -/
def loadVRMStartV (st : ViewerState) (url : String) : ViewerState :=
  if url == "" then st
  else
    let st2 := { st with isLoading := true, error := "" }
    let st3 :=
      match st2.currentVrm with
      | some vrm => { st2 with sceneModels := st2.sceneModels.erase vrm.id, currentVrm := none }
      | none => st2
    let st4 := { st3 with mixer := false, activeAction := none }
    resetExpressionsV st4

/-- `scene.add(vrm.scene)`: adding an object already in the scene is a no-op. -/
def sceneAdd (models : List Nat) (id : Nat) : List Nat :=
  if id ∈ models then models else models ++ [id]

/-- The VRM load success callback (lines 678-749): with VRM data, install the
model and add its scene; without, set the no-data error. Either way loading
ends. -/
def onVrmLoaded (st : ViewerState) (result : Option VrmModel) : ViewerState :=
  match result with
  | some vrm =>
    { st with currentVrm := some vrm, sceneModels := sceneAdd st.sceneModels vrm.id,
              isLoading := false }
  | none =>
    { st with error := "Failed to load VRM model: No VRM data found", isLoading := false }

/-- The VRM loader's error callback (lines 757-767). -/
def onVrmLoadError (st : ViewerState) (f : LoadFailure) : ViewerState :=
  { st with error := "Failed to load VRM model: " ++ failureMessage f, isLoading := false }

/-- The initial component state. -/
def initViewer : ViewerState :=
  { currentVrm := none, mixer := false, activeAction := none, sceneModels := [],
    error := "", isLoading := false, activeExpression := "" }

/- ## Imperative control surface (part_000 lines 633-639 and 771-777) -/

/-- The functions attached to the container element after mount. -/
structure ContainerSurface where
  loadVRM : ViewerState → String → ViewerState
  playAnimation : ViewerState → String → ViewerState
  setExpression : ViewerState → String → ℚ → ViewerState

/-- The functions stored in `animationControlRef`. -/
structure AnimationControl where
  playAnimation : ViewerState → String → ViewerState
  stopAnimation : ViewerState → ViewerState
  setExpression : ViewerState → String → ℚ → ViewerState
  resetExpressions : ViewerState → ViewerState

/-- `container.loadVRM = loadVRM; container.playAnimation = playAnimation;
container.setExpression = setExpression`. -/
def mountedContainer : ContainerSurface :=
  { loadVRM := loadVRMStartV, playAnimation := playAnimationStartV,
    setExpression := setExpressionV }

/-- `animationControlRef.current = { playAnimation, stopAnimation,
setExpression, resetExpressions }`. -/
def animationControl : AnimationControl :=
  { playAnimation := playAnimationStartV, stopAnimation := stopAnimationV,
    setExpression := setExpressionV, resetExpressions := resetExpressionsV }

/- ## Asynchronous execution: commands and loader callbacks as events -/

/-- An event: a user command, or a loader callback firing. -/
inductive VEvent where
  | loadStart (url : String)
  | loadOk (vrm : VrmModel)
  | loadNoData
  | loadErr (f : LoadFailure)
  | playStart (url : String)
  | fbxOk (animations : List Clip)
  | fbxErr (f : LoadFailure)
  | gltfOk (animations : List Clip)
  | gltfErr (f : LoadFailure)
  | stopAnim
  | setExpr (name : String) (w : ℚ)
  | resetExpr
deriving DecidableEq, Repr

/-- The viewer state together with the loads in flight, so callback events
can be constrained to pending loads. -/
structure SysState where
  vs : ViewerState
  pendingModel : Nat
  pendingFbx : Nat
  pendingGltf : Nat
deriving DecidableEq, Repr

/-- The initial system state. -/
def sysInit : SysState :=
  { vs := initViewer, pendingModel := 0, pendingFbx := 0, pendingGltf := 0 }

/-- One event's effect: commands run their synchronous part and register the
load they dispatch; callbacks run their handler and settle a pending load. -/
def stepSys : SysState → VEvent → SysState
  | s, VEvent.loadStart url =>
    if url == "" then s
    else { s with vs := loadVRMStartV s.vs url, pendingModel := s.pendingModel + 1 }
  | s, VEvent.loadOk vrm =>
    { s with vs := onVrmLoaded s.vs (some vrm), pendingModel := s.pendingModel - 1 }
  | s, VEvent.loadNoData =>
    { s with vs := onVrmLoaded s.vs none, pendingModel := s.pendingModel - 1 }
  | s, VEvent.loadErr f =>
    { s with vs := onVrmLoadError s.vs f, pendingModel := s.pendingModel - 1 }
  | s, VEvent.playStart url =>
    if s.vs.currentVrm.isNone || url == "" then { s with vs := playAnimationStartV s.vs url }
    else if animIsFBX url then
      { s with vs := playAnimationStartV s.vs url, pendingFbx := s.pendingFbx + 1 }
    else
      { s with vs := playAnimationStartV s.vs url, pendingGltf := s.pendingGltf + 1 }
  | s, VEvent.fbxOk animations =>
    { s with vs := onFbxLoadedV s.vs animations, pendingFbx := s.pendingFbx - 1 }
  | s, VEvent.fbxErr f =>
    { s with vs := onAnimLoadError s.vs f, pendingFbx := s.pendingFbx - 1 }
  | s, VEvent.gltfOk animations =>
    { s with vs := onGltfAnimLoadedV s.vs animations, pendingGltf := s.pendingGltf - 1 }
  | s, VEvent.gltfErr f =>
    { s with vs := onAnimLoadError s.vs f, pendingGltf := s.pendingGltf - 1 }
  | s, VEvent.stopAnim => { s with vs := stopAnimationV s.vs }
  | s, VEvent.setExpr name w => { s with vs := setExpressionV s.vs name w }
  | s, VEvent.resetExpr => { s with vs := resetExpressionsV s.vs }

/-- An event is possible: a callback only fires for a pending load. -/
def validE (s : SysState) (e : VEvent) : Bool :=
  match e with
  | VEvent.loadOk _ => decide (0 < s.pendingModel)
  | VEvent.loadNoData => decide (0 < s.pendingModel)
  | VEvent.loadErr _ => decide (0 < s.pendingModel)
  | VEvent.fbxOk _ => decide (0 < s.pendingFbx)
  | VEvent.fbxErr _ => decide (0 < s.pendingFbx)
  | VEvent.gltfOk _ => decide (0 < s.pendingGltf)
  | VEvent.gltfErr _ => decide (0 < s.pendingGltf)
  | _ => true

/-- Sequential discipline: additionally, a new model load is only issued once
no model load is pending. -/
def seqOkE (s : SysState) (e : VEvent) : Bool :=
  validE s e &&
    match e with
    | VEvent.loadStart _ => decide (s.pendingModel = 0)
    | _ => true

/-- Run a list of events. -/
def runTrace (s : SysState) (tr : List VEvent) : SysState := tr.foldl stepSys s

/-- Every event of the trace is possible when it fires. -/
def validTraceB : SysState → List VEvent → Bool
  | _, [] => true
  | s, e :: es => validE s e && validTraceB (stepSys s e) es

/-- Every event is possible and model loads never overlap. -/
def seqTraceB : SysState → List VEvent → Bool
  | _, [] => true
  | s, e :: es => seqOkE s e && seqTraceB (stepSys s e) es

/- ## Expression-manager lemmas -/

/-- The manager the viewer currently drives, when any. -/
def currentMgr (st : ViewerState) : Option (List (String × ℚ)) :=
  st.currentVrm.bind (fun vrm => vrm.exprMgr)

/-- The weight the current model's manager holds for an expression. -/
def exprWeight (st : ViewerState) (name : String) : Option ℚ :=
  (currentMgr st).bind (fun mg => mgrGet mg name)

theorem mgrGet_setValue_self (mg : List (String × ℚ)) (name : String) (w : ℚ) :
    mgrGet (mgrSetValue mg name w) name = (mgrGet mg name).map (fun _ => w) := by
  induction mg with
  | nil => rfl
  | cons hd tl ih =>
    simp only [mgrSetValue, List.map_cons, beq_iff_eq] at ih ⊢
    by_cases h : hd.1 = name
    · simp [mgrGet, beq_iff_eq, h]
    · simp [mgrGet, beq_iff_eq, h, ih]

theorem mgrGet_setValue_ne (mg : List (String × ℚ)) (k n : String) (w : ℚ) (h : n ≠ k) :
    mgrGet (mgrSetValue mg k w) n = mgrGet mg n := by
  have hkn : ¬ (k = n) := fun hh => h hh.symm
  induction mg with
  | nil => rfl
  | cons hd tl ih =>
    simp only [mgrSetValue, List.map_cons, beq_iff_eq] at ih ⊢
    by_cases h2 : hd.1 = k
    · simp [mgrGet, beq_iff_eq, h2, hkn, ih]
    · by_cases h4 : hd.1 = n
      · simp [mgrGet, beq_iff_eq, h2, h4, h]
      · simp [mgrGet, beq_iff_eq, h2, h4, ih]

theorem mgrGet_foldZero_not_mem (L : List String) (mg : List (String × ℚ)) (n : String)
    (h : n ∉ L) :
    mgrGet (L.foldl (fun acc e => mgrSetValue acc e 0) mg) n = mgrGet mg n := by
  induction L generalizing mg with
  | nil => rfl
  | cons a L2 ih =>
    have hn : n ≠ a := fun hh => h (hh ▸ List.mem_cons_self a L2)
    have h2 : n ∉ L2 := fun hh => h (List.mem_cons_of_mem _ hh)
    simp only [List.foldl_cons]
    rw [ih _ h2, mgrGet_setValue_ne _ _ _ _ hn]

theorem mgrGet_foldZero_mem (L : List String) (mg : List (String × ℚ)) (n : String)
    (h : n ∈ L) :
    mgrGet (L.foldl (fun acc e => mgrSetValue acc e 0) mg) n
      = (mgrGet mg n).map (fun _ => (0 : ℚ)) := by
  induction L generalizing mg with
  | nil => cases h
  | cons a L2 ih =>
    simp only [List.foldl_cons]
    by_cases hmem : n ∈ L2
    · rw [ih _ hmem]
      by_cases hna : n = a
      · subst hna
        rw [mgrGet_setValue_self]
        cases mgrGet mg n <;> rfl
      · rw [mgrGet_setValue_ne _ _ _ _ hna]
    · have hna : n = a := by
        rcases List.mem_cons.mp h with h1 | h1
        · exact h1
        · exact absurd h1 hmem
      subst hna
      rw [mgrGet_foldZero_not_mem _ _ _ hmem, mgrGet_setValue_self]

theorem mgrGet_resetAll_mem (mg : List (String × ℚ)) (n : String)
    (h : n ∈ RENDER_CONFIG_expressions) :
    mgrGet (resetAllWeights mg) n = (mgrGet mg n).map (fun _ => (0 : ℚ)) :=
  mgrGet_foldZero_mem _ _ _ h

theorem mgrGet_resetAll_not_mem (mg : List (String × ℚ)) (n : String)
    (h : n ∉ RENDER_CONFIG_expressions) :
    mgrGet (resetAllWeights mg) n = mgrGet mg n :=
  mgrGet_foldZero_not_mem _ _ _ h


/- ## State-preservation lemmas -/

theorem resetExpressionsV_none (st : ViewerState) (h : st.currentVrm = none) :
    resetExpressionsV st = st := by
  simp [resetExpressionsV, h]

/-- The scene contents a given `currentVrm` accounts for. -/
def sceneOf : Option VrmModel → List Nat
  | some vrm => [vrm.id]
  | none => []

theorem resetExpressionsV_scene (st : ViewerState) :
    (resetExpressionsV st).sceneModels = st.sceneModels ∧
    sceneOf (resetExpressionsV st).currentVrm = sceneOf st.currentVrm ∧
    ((resetExpressionsV st).currentVrm = none ↔ st.currentVrm = none) := by
  cases h : st.currentVrm with
  | none => simp [resetExpressionsV, h]
  | some vrm =>
    cases h2 : vrm.exprMgr with
    | none => simp [resetExpressionsV, h, h2]
    | some mg => simp [resetExpressionsV, h, h2, sceneOf]

theorem setExpressionV_scene (st : ViewerState) (name : String) (w : ℚ) :
    (setExpressionV st name w).sceneModels = st.sceneModels ∧
    sceneOf (setExpressionV st name w).currentVrm = sceneOf st.currentVrm ∧
    ((setExpressionV st name w).currentVrm = none ↔ st.currentVrm = none) := by
  cases h : st.currentVrm with
  | none => simp [setExpressionV, h]
  | some vrm =>
    cases h2 : vrm.exprMgr with
    | none => simp [setExpressionV, h, h2]
    | some mg => simp [setExpressionV, h, h2, sceneOf]

theorem playAnimationStartV_scene (st : ViewerState) (url : String) :
    (playAnimationStartV st url).sceneModels = st.sceneModels ∧
    (playAnimationStartV st url).currentVrm = st.currentVrm := by
  unfold playAnimationStartV
  by_cases h : (st.currentVrm.isNone || url == "") = true
  · simp [h]
  · simp [h]

theorem onFbxLoadedV_scene (st : ViewerState) (animations : List Clip) :
    (onFbxLoadedV st animations).sceneModels = st.sceneModels ∧
    (onFbxLoadedV st animations).currentVrm = st.currentVrm := by
  cases h : st.currentVrm with
  | none => simp [onFbxLoadedV, h]
  | some vrm =>
    cases animations with
    | nil => simp [onFbxLoadedV, h]
    | cons clip rest =>
      cases h2 : buildBoneMapping vrm.humanoid with
      | error msg => simp [onFbxLoadedV, h, h2]
      | ok boneMapping =>
        by_cases h3 : (retargetTracks boneMapping clip.tracks).isEmpty = true
        · simp [onFbxLoadedV, h, h2, h3]
        · rw [Bool.not_eq_true] at h3
          simp [onFbxLoadedV, h, h2, h3]

theorem onGltfAnimLoadedV_scene (st : ViewerState) (animations : List Clip) :
    (onGltfAnimLoadedV st animations).sceneModels = st.sceneModels ∧
    (onGltfAnimLoadedV st animations).currentVrm = st.currentVrm := by
  cases h : st.currentVrm with
  | none => simp [onGltfAnimLoadedV, h]
  | some vrm => cases animations <;> simp [onGltfAnimLoadedV, h]

theorem loadVRMStartV_clears (st : ViewerState) (url : String) (hu : ¬ (url = ""))
    (hs : st.sceneModels = sceneOf st.currentVrm) :
    (loadVRMStartV st url).currentVrm = none ∧
    (loadVRMStartV st url).sceneModels = [] ∧
    (loadVRMStartV st url).mixer = false ∧
    (loadVRMStartV st url).activeAction = none := by
  have hu2 : (url == "") = false := by
    simp [hu]
  cases h : st.currentVrm with
  | none =>
    have hsc : st.sceneModels = [] := by
      rw [hs, h]
      rfl
    simp [loadVRMStartV, hu2, h, hsc, resetExpressionsV]
  | some vrm =>
    have hsc : st.sceneModels = [vrm.id] := by
      rw [hs, h]
      rfl
    simp [loadVRMStartV, hu2, h, hsc, resetExpressionsV, List.erase_cons_head]

/- ## The sequential single-model invariant -/

/-- Invariant: at most one model load pending, a pending load only after the
scene was cleared, and the scene holds exactly the current model's scene. -/
def Inv4 (s : SysState) : Prop :=
  s.pendingModel ≤ 1 ∧
  (s.pendingModel = 1 → s.vs.currentVrm = none) ∧
  s.vs.sceneModels = sceneOf s.vs.currentVrm

theorem sysInit_Inv4 : Inv4 sysInit :=
  ⟨by decide, fun _ => rfl, rfl⟩

theorem stepSys_loadStart_ne (s : SysState) (url : String) (hu2 : (url == "") = false) :
    stepSys s (VEvent.loadStart url) =
      { s with vs := loadVRMStartV s.vs url, pendingModel := s.pendingModel + 1 } := by
  simp [stepSys, hu2]

theorem stepSys_playStart (s : SysState) (url : String) :
    (stepSys s (VEvent.playStart url)).vs = playAnimationStartV s.vs url ∧
    (stepSys s (VEvent.playStart url)).pendingModel = s.pendingModel := by
  simp only [stepSys]
  by_cases hg : (s.vs.currentVrm.isNone || url == "") = true
  · simp [hg]
  · by_cases hf : animIsFBX url = true
    · simp [hg, hf]
    · simp [hg, hf]

theorem stepSys_Inv4 (s : SysState) (e : VEvent) (h : Inv4 s) (hv : seqOkE s e = true) :
    Inv4 (stepSys s e) := by
  obtain ⟨h1, h2, h3⟩ := h
  cases e with
  | loadStart url =>
    by_cases hu : url = ""
    · have hstep : stepSys s (VEvent.loadStart url) = s := by
        simp [stepSys, hu]
      rw [hstep]
      exact ⟨h1, h2, h3⟩
    · have hp : s.pendingModel = 0 := by
        simp [seqOkE, validE] at hv
        exact hv
      have hu2 : (url == "") = false := by
        simp [hu]
      obtain ⟨hc, hsc, _, _⟩ := loadVRMStartV_clears s.vs url hu h3
      rw [stepSys_loadStart_ne s url hu2]
      refine ⟨?_, fun _ => hc, ?_⟩
      · show s.pendingModel + 1 ≤ 1
        omega
      · show (loadVRMStartV s.vs url).sceneModels = sceneOf (loadVRMStartV s.vs url).currentVrm
        rw [hc, hsc]
        rfl
  | loadOk vrm =>
    have hp : 0 < s.pendingModel := by
      simp [seqOkE, validE] at hv
      exact hv
    have hc : s.vs.currentVrm = none := h2 (by omega)
    have hsc : s.vs.sceneModels = [] := by
      rw [h3, hc]
      rfl
    refine ⟨?_, ?_, ?_⟩
    · show s.pendingModel - 1 ≤ 1
      omega
    · intro hcontra
      exact absurd (show s.pendingModel - 1 = 1 from hcontra) (by omega)
    · show (onVrmLoaded s.vs (some vrm)).sceneModels
        = sceneOf (onVrmLoaded s.vs (some vrm)).currentVrm
      simp [onVrmLoaded, hsc, sceneAdd, sceneOf]
  | loadNoData =>
    refine ⟨?_, ?_, ?_⟩
    · show s.pendingModel - 1 ≤ 1
      omega
    · intro hcontra
      have hcontra2 : s.pendingModel - 1 = 1 := hcontra
      have hc := h2 (by omega)
      show (onVrmLoaded s.vs none).currentVrm = none
      simpa [onVrmLoaded] using hc
    · show (onVrmLoaded s.vs none).sceneModels = sceneOf (onVrmLoaded s.vs none).currentVrm
      simpa [onVrmLoaded] using h3
  | loadErr f =>
    refine ⟨?_, ?_, ?_⟩
    · show s.pendingModel - 1 ≤ 1
      omega
    · intro hcontra
      have hcontra2 : s.pendingModel - 1 = 1 := hcontra
      have hc := h2 (by omega)
      show (onVrmLoadError s.vs f).currentVrm = none
      simpa [onVrmLoadError] using hc
    · show (onVrmLoadError s.vs f).sceneModels = sceneOf (onVrmLoadError s.vs f).currentVrm
      simpa [onVrmLoadError] using h3
  | playStart url =>
    obtain ⟨hsc, hcv⟩ := playAnimationStartV_scene s.vs url
    obtain ⟨hvs, hpm⟩ := stepSys_playStart s url
    refine ⟨by rw [hpm]; exact h1, fun hp => ?_, ?_⟩
    · rw [hvs, hcv]
      exact h2 (by rw [← hpm]; exact hp)
    · rw [hvs, hsc, hcv]
      exact h3
  | fbxOk animations =>
    obtain ⟨hsc, hcv⟩ := onFbxLoadedV_scene s.vs animations
    refine ⟨h1, fun hp => ?_, ?_⟩
    · show (onFbxLoadedV s.vs animations).currentVrm = none
      rw [hcv]
      exact h2 hp
    · show (onFbxLoadedV s.vs animations).sceneModels
        = sceneOf (onFbxLoadedV s.vs animations).currentVrm
      rw [hsc, hcv]
      exact h3
  | fbxErr f =>
    exact ⟨h1, fun hp => h2 hp, h3⟩
  | gltfOk animations =>
    obtain ⟨hsc, hcv⟩ := onGltfAnimLoadedV_scene s.vs animations
    refine ⟨h1, fun hp => ?_, ?_⟩
    · show (onGltfAnimLoadedV s.vs animations).currentVrm = none
      rw [hcv]
      exact h2 hp
    · show (onGltfAnimLoadedV s.vs animations).sceneModels
        = sceneOf (onGltfAnimLoadedV s.vs animations).currentVrm
      rw [hsc, hcv]
      exact h3
  | gltfErr f =>
    exact ⟨h1, fun hp => h2 hp, h3⟩
  | stopAnim =>
    exact ⟨h1, fun hp => h2 hp, h3⟩
  | setExpr name w =>
    obtain ⟨hsc, hcv, hnone⟩ := setExpressionV_scene s.vs name w
    refine ⟨h1, fun hp => hnone.mpr (h2 hp), ?_⟩
    show (setExpressionV s.vs name w).sceneModels
      = sceneOf (setExpressionV s.vs name w).currentVrm
    rw [hsc, hcv]
    exact h3
  | resetExpr =>
    obtain ⟨hsc, hcv, hnone⟩ := resetExpressionsV_scene s.vs
    refine ⟨h1, fun hp => hnone.mpr (h2 hp), ?_⟩
    show (resetExpressionsV s.vs).sceneModels = sceneOf (resetExpressionsV s.vs).currentVrm
    rw [hsc, hcv]
    exact h3

theorem seqTraceB_Inv4 (tr : List VEvent) :
    ∀ s : SysState, Inv4 s → seqTraceB s tr = true → Inv4 (runTrace s tr) := by
  induction tr with
  | nil =>
    intro s h _
    simpa [runTrace] using h
  | cons e es ih =>
    intro s h hseq
    simp only [seqTraceB, Bool.and_eq_true] at hseq
    have h2 := stepSys_Inv4 s e h hseq.1
    simpa [runTrace] using ih (stepSys s e) h2 hseq.2

/- ## Claim theorems -/

/-- Claim C2: when the FBX retargeting pass maps zero tracks onto VRM bones,
`playAnimation` does not fail: the FBX callback leaves the error untouched and
plays the 2-second looping position-keyframe clip named `fallback-motion` as
the active action. -/
theorem C2_fallback_motion (st : ViewerState) (vrm : VrmModel)
    (boneMapping : List (String × Bone)) (clip : Clip) (rest : List Clip)
    (h1 : st.currentVrm = some vrm)
    (h2 : buildBoneMapping vrm.humanoid = Except.ok boneMapping)
    (h3 : retargetTracks boneMapping clip.tracks = []) :
    (onFbxLoadedV st (clip :: rest)).activeAction
      = some { clip := fallbackClip, looping := true } ∧
    (onFbxLoadedV st (clip :: rest)).error = st.error ∧
    fallbackClip.name = "fallback-motion" ∧
    fallbackClip.duration = 2 ∧
    fallbackClip.tracks = [fallbackTrack] ∧
    fallbackTrack.name = ".position" ∧
    fallbackTrack.kind = TrackKind.vector := by
  have hstep : onFbxLoadedV st (clip :: rest)
      = { st with mixer := true,
                  activeAction := some { clip := fallbackClip, looping := true } } := by
    simp [onFbxLoadedV, h1, h2, h3]
  rw [hstep]
  exact ⟨rfl, rfl, rfl, rfl, rfl, rfl, rfl⟩

def exVrm2 : VrmModel := { id := 7, humanoid := none, exprMgr := none }

def exSt2 : ViewerState :=
  { currentVrm := some exVrm2, mixer := false, activeAction := none, sceneModels := [7],
    error := "", isLoading := false, activeExpression := "" }

def exClip2 : Clip :=
  { name := "mixamo.com", duration := 1,
    tracks := [{ name := "mixamorigHips.quaternion", times := [0], values := [0],
                 kind := TrackKind.quaternion }] }

theorem C2_fallback_motion_witness :
    retargetTracks [] exClip2.tracks = [] ∧
    (onFbxLoadedV exSt2 [exClip2]).activeAction
      = some { clip := fallbackClip, looping := true } ∧
    (onFbxLoadedV exSt2 [exClip2]).error = exSt2.error :=
  ⟨rfl, (C2_fallback_motion exSt2 exVrm2 [] exClip2 [] rfl rfl rfl).1,
    (C2_fallback_motion exSt2 exVrm2 [] exClip2 [] rfl rfl rfl).2.1⟩

/-- Claim C3: with no VRM model loaded (`currentVrm` null), `playAnimation`
returns without changing any state, and both the FBX and the GLTF animation
load callbacks return without effect. -/
theorem C3_null_model_guard (st : ViewerState) (url : String)
    (fbxAnims gltfAnims : List Clip) (h : st.currentVrm = none) :
    playAnimationStartV st url = st ∧
    onFbxLoadedV st fbxAnims = st ∧
    onGltfAnimLoadedV st gltfAnims = st := by
  refine ⟨?_, ?_, ?_⟩
  · simp [playAnimationStartV, h]
  · simp [onFbxLoadedV, h]
  · simp [onGltfAnimLoadedV, h]

theorem C3_null_model_guard_witness :
    initViewer.currentVrm = none ∧
    playAnimationStartV initViewer "dance.fbx" = initViewer ∧
    onFbxLoadedV initViewer [exClip2] = initViewer ∧
    onGltfAnimLoadedV initViewer [exClip2] = initViewer :=
  ⟨rfl, (C3_null_model_guard initViewer "dance.fbx" [exClip2] [exClip2] rfl).1,
    (C3_null_model_guard initViewer "dance.fbx" [exClip2] [exClip2] rfl).2.1,
    (C3_null_model_guard initViewer "dance.fbx" [exClip2] [exClip2] rfl).2.2⟩

/-- Claim C5: loader failures surface as plain strings in the UI error state:
`Failed to load VRM model: <message>` and `Failed to load animation:
<message>` from the error callbacks, `Failed to load VRM model: No VRM data
found` when the file parses without VRM data, with `Unknown error` as the
extracted message for unrecognised values; the error events settle the
pending load and start no new one (no retry). -/
theorem C5_error_surfacing (st : ViewerState) (f : LoadFailure) (m : String) (s : SysState) :
    (onVrmLoadError st f).error = "Failed to load VRM model: " ++ failureMessage f ∧
    (onVrmLoadError st f).isLoading = false ∧
    (onAnimLoadError st f).error = "Failed to load animation: " ++ failureMessage f ∧
    (onVrmLoaded st none).error = "Failed to load VRM model: No VRM data found" ∧
    failureMessage (LoadFailure.errObj m) = m ∧
    failureMessage (LoadFailure.objWithMessage m) = m ∧
    failureMessage LoadFailure.other = "Unknown error" ∧
    (stepSys s (VEvent.loadErr f)).pendingModel = s.pendingModel - 1 ∧
    (stepSys s (VEvent.loadErr f)).pendingFbx = s.pendingFbx ∧
    (stepSys s (VEvent.loadErr f)).pendingGltf = s.pendingGltf ∧
    (stepSys s (VEvent.fbxErr f)).pendingFbx = s.pendingFbx - 1 ∧
    (stepSys s (VEvent.fbxErr f)).pendingModel = s.pendingModel ∧
    (stepSys s (VEvent.fbxErr f)).pendingGltf = s.pendingGltf ∧
    (stepSys s (VEvent.gltfErr f)).pendingGltf = s.pendingGltf - 1 ∧
    (stepSys s (VEvent.gltfErr f)).pendingModel = s.pendingModel ∧
    (stepSys s (VEvent.gltfErr f)).pendingFbx = s.pendingFbx :=
  ⟨rfl, rfl, rfl, rfl, rfl, rfl, rfl, rfl, rfl, rfl, rfl, rfl, rfl, rfl, rfl, rfl⟩

/-- Claim C6: the expression presets are exactly the fixed list of 14 names,
and `resetExpressions` zeroes the weight of every preset in this list (when
the model's manager carries it) and clears the active-expression state. -/
theorem C6_expression_presets (st : ViewerState) (vrm : VrmModel) (mg : List (String × ℚ))
    (h1 : st.currentVrm = some vrm) (h2 : vrm.exprMgr = some mg) :
    RENDER_CONFIG_expressions =
      ["neutral", "happy", "angry", "sad", "relaxed", "surprised",
       "aa", "ih", "ou", "ee", "oh", "blink", "blinkLeft", "blinkRight"] ∧
    RENDER_CONFIG_expressions.length = 14 ∧
    (resetExpressionsV st).activeExpression = "" ∧
    ∀ name ∈ RENDER_CONFIG_expressions,
      exprWeight (resetExpressionsV st) name = (exprWeight st name).map (fun _ => (0 : ℚ)) := by
  have hreset : resetExpressionsV st =
      { st with currentVrm := some { vrm with exprMgr := some (resetAllWeights mg) },
                activeExpression := "" } := by
    simp [resetExpressionsV, h1, h2]
  refine ⟨rfl, rfl, by rw [hreset], ?_⟩
  intro name hn
  rw [hreset]
  show mgrGet (resetAllWeights mg) name = (exprWeight st name).map (fun _ => (0 : ℚ))
  rw [mgrGet_resetAll_mem mg name hn]
  simp [exprWeight, currentMgr, h1, h2]

def exVrm6 : VrmModel :=
  { id := 5, humanoid := none, exprMgr := some [("happy", 1), ("custom", 5)] }

def exSt6 : ViewerState :=
  { currentVrm := some exVrm6, mixer := false, activeAction := none, sceneModels := [5],
    error := "", isLoading := false, activeExpression := "happy" }

theorem C6_expression_presets_witness :
    exSt6.currentVrm = some exVrm6 ∧
    (resetExpressionsV exSt6).activeExpression = "" ∧
    exprWeight (resetExpressionsV exSt6) "happy"
      = (exprWeight exSt6 "happy").map (fun _ => (0 : ℚ)) :=
  ⟨rfl, (C6_expression_presets exSt6 exVrm6 [("happy", 1), ("custom", 5)] rfl rfl).2.2.1,
    (C6_expression_presets exSt6 exVrm6 [("happy", 1), ("custom", 5)] rfl rfl).2.2.2
      "happy" (by decide)⟩

/-- Claim C7: after mount, the container element exposes `loadVRM`,
`playAnimation` and `setExpression`, and the animation-control ref exposes
`playAnimation`, `stopAnimation`, `setExpression` and `resetExpressions`;
each field is the corresponding imperative function, and `stopAnimation`
clears the active action on any state. -/
theorem C7_control_surface :
    mountedContainer.loadVRM = loadVRMStartV ∧
    mountedContainer.playAnimation = playAnimationStartV ∧
    mountedContainer.setExpression = setExpressionV ∧
    animationControl.playAnimation = playAnimationStartV ∧
    animationControl.stopAnimation = stopAnimationV ∧
    animationControl.setExpression = setExpressionV ∧
    animationControl.resetExpressions = resetExpressionsV ∧
    (∀ st : ViewerState, (animationControl.stopAnimation st).activeAction = none) :=
  ⟨rfl, rfl, rfl, rfl, rfl, rfl, rfl, fun _ => rfl⟩

/-- Claim C9: only urls whose lowercased form ends in `.fbx` are dispatched to
the FBX loader (and hence the retargeting pass); every other url goes to the
GLTF loader, whose callback applies the file's first clip to the mixer
unchanged and sets no UI error when the file has no animation. -/
theorem C9_animation_dispatch (s : SysState) (url : String) (vrm : VrmModel)
    (st : ViewerState) (clip : Clip) (rest : List Clip)
    (h1 : s.vs.currentVrm = some vrm) (h2 : ¬ (url = ""))
    (h3 : st.currentVrm.isSome = true) :
    (stepSys s (VEvent.playStart url)).pendingFbx
      = s.pendingFbx + (if animIsFBX url then 1 else 0) ∧
    (stepSys s (VEvent.playStart url)).pendingGltf
      = s.pendingGltf + (if animIsFBX url then 0 else 1) ∧
    (stepSys s (VEvent.playStart url)).pendingModel = s.pendingModel ∧
    (onGltfAnimLoadedV st (clip :: rest)).activeAction
      = some { clip := clip, looping := true } ∧
    (onGltfAnimLoadedV st []).error = st.error ∧
    animIsFBX "run.FBX" = true ∧
    animIsFBX "run.glb" = false ∧
    animIsFBX "run.gltf" = false := by
  have hg : (s.vs.currentVrm.isNone || url == "") = false := by
    simp [h1, h2]
  obtain ⟨vrm2, hv2⟩ := Option.isSome_iff_exists.mp h3
  refine ⟨?_, ?_, ?_, ?_, ?_, by decide, by decide, by decide⟩
  · by_cases hf : animIsFBX url = true
    · simp [stepSys, hg, hf]
    · rw [Bool.not_eq_true] at hf
      simp [stepSys, hg, hf]
  · by_cases hf : animIsFBX url = true
    · simp [stepSys, hg, hf]
    · rw [Bool.not_eq_true] at hf
      simp [stepSys, hg, hf]
  · by_cases hf : animIsFBX url = true
    · simp [stepSys, hg, hf]
    · rw [Bool.not_eq_true] at hf
      simp [stepSys, hg, hf]
  · simp [onGltfAnimLoadedV, hv2]
  · simp [onGltfAnimLoadedV, hv2]

def exSys9 : SysState :=
  { vs := exSt6, pendingModel := 0, pendingFbx := 0, pendingGltf := 0 }

theorem C9_animation_dispatch_witness :
    exSys9.vs.currentVrm = some exVrm6 ∧
    (stepSys exSys9 (VEvent.playStart "walk.glb")).pendingGltf = exSys9.pendingGltf + 1 ∧
    (stepSys exSys9 (VEvent.playStart "walk.glb")).pendingFbx = exSys9.pendingFbx ∧
    (onGltfAnimLoadedV exSt6 [exClip2]).activeAction
      = some { clip := exClip2, looping := true } :=
  ⟨rfl,
    by
      have h := (C9_animation_dispatch exSys9 "walk.glb" exVrm6 exSt6 exClip2 [] rfl
        (by decide) rfl).2.1
      simpa using h,
    by
      have h := (C9_animation_dispatch exSys9 "walk.glb" exVrm6 exSt6 exClip2 [] rfl
        (by decide) rfl).1
      simpa using h,
    (C9_animation_dispatch exSys9 "walk.glb" exVrm6 exSt6 exClip2 [] rfl (by decide) rfl).2.2.2.1⟩

/-- Claim C10: `setExpression` first zeroes every preset weight and only then
sets the requested expression to the given weight (`1.0` when omitted), so
afterwards at most one preset has a nonzero weight; with no model or no
expression manager the call is a no-op. -/
theorem C10_exclusive_expression (st : ViewerState) (vrm : VrmModel)
    (mg : List (String × ℚ)) (name : String) (w : ℚ)
    (h1 : st.currentVrm = some vrm) (h2 : vrm.exprMgr = some mg) :
    (setExpressionV st name w).activeExpression = name ∧
    (∀ p ∈ RENDER_CONFIG_expressions, p ≠ name →
      exprWeight (setExpressionV st name w) p = (exprWeight st p).map (fun _ => (0 : ℚ))) ∧
    exprWeight (setExpressionV st name w) name = (exprWeight st name).map (fun _ => w) ∧
    (∀ p ∈ RENDER_CONFIG_expressions, ∀ q ∈ RENDER_CONFIG_expressions,
      ¬ (exprWeight (setExpressionV st name w) p = some 0 ∨
         exprWeight (setExpressionV st name w) p = none) →
      ¬ (exprWeight (setExpressionV st name w) q = some 0 ∨
         exprWeight (setExpressionV st name w) q = none) → p = q) ∧
    (∀ st2 : ViewerState, currentMgr st2 = none → setExpressionV st2 name w = st2) ∧
    (∀ st2 : ViewerState, ∀ n2 : String,
      setExpressionDefaultV st2 n2 = setExpressionV st2 n2 1) := by
  have hset : setExpressionV st name w =
      { st with
        currentVrm := some { vrm with exprMgr := some (mgrSetValue (resetAllWeights mg) name w) },
        activeExpression := name } := by
    simp [setExpressionV, h1, h2]
  have hw : ∀ p : String, exprWeight (setExpressionV st name w) p
      = mgrGet (mgrSetValue (resetAllWeights mg) name w) p := by
    intro p
    rw [hset]
    rfl
  have hbase : ∀ p : String, exprWeight st p = mgrGet mg p := by
    intro p
    simp [exprWeight, currentMgr, h1, h2]
  have hother : ∀ p ∈ RENDER_CONFIG_expressions, p ≠ name →
      exprWeight (setExpressionV st name w) p = (exprWeight st p).map (fun _ => (0 : ℚ)) := by
    intro p hp hne
    rw [hw, hbase, mgrGet_setValue_ne _ _ _ _ hne, mgrGet_resetAll_mem mg p hp]
  have hself : exprWeight (setExpressionV st name w) name
      = (exprWeight st name).map (fun _ => w) := by
    rw [hw, hbase, mgrGet_setValue_self]
    by_cases hn : name ∈ RENDER_CONFIG_expressions
    · rw [mgrGet_resetAll_mem mg name hn]
      cases mgrGet mg name <;> rfl
    · rw [mgrGet_resetAll_not_mem mg name hn]
  refine ⟨by rw [hset], hother, hself, ?_, ?_, ?_⟩
  · intro p hp q hq hpw hqw
    have hpn : p = name := by
      by_contra hne
      rcases hzero : exprWeight st p with _ | x
      · exact hpw (Or.inr (by rw [hother p hp hne, hzero]; rfl))
      · exact hpw (Or.inl (by rw [hother p hp hne, hzero]; rfl))
    have hqn : q = name := by
      by_contra hne
      rcases hzero : exprWeight st q with _ | x
      · exact hqw (Or.inr (by rw [hother q hq hne, hzero]; rfl))
      · exact hqw (Or.inl (by rw [hother q hq hne, hzero]; rfl))
    rw [hpn, hqn]
  · intro st2 hm
    cases hc : st2.currentVrm with
    | none => simp [setExpressionV, hc]
    | some vrm2 =>
      have hm2 : vrm2.exprMgr = none := by
        simpa [currentMgr, hc] using hm
      simp [setExpressionV, hc, hm2]
  · intro st2 n2
    rfl

theorem C10_exclusive_expression_witness :
    exSt6.currentVrm = some exVrm6 ∧
    (setExpressionV exSt6 "sad" 1).activeExpression = "sad" ∧
    exprWeight (setExpressionV exSt6 "sad" 1) "happy"
      = (exprWeight exSt6 "happy").map (fun _ => (0 : ℚ)) ∧
    exprWeight (setExpressionV exSt6 "sad" 1) "sad"
      = (exprWeight exSt6 "sad").map (fun _ => (1 : ℚ)) :=
  ⟨rfl,
    (C10_exclusive_expression exSt6 exVrm6 [("happy", 1), ("custom", 5)] "sad" 1 rfl rfl).1,
    (C10_exclusive_expression exSt6 exVrm6 [("happy", 1), ("custom", 5)] "sad" 1 rfl rfl).2.1
      "happy" (by decide) (by decide),
    (C10_exclusive_expression exSt6 exVrm6 [("happy", 1), ("custom", 5)] "sad" 1 rfl
      rfl).2.2.1⟩

/- ## C4: the single-active-model invariant under overlapping loads -/

def model1 : VrmModel := { id := 1, humanoid := none, exprMgr := none }

def model2 : VrmModel := { id := 2, humanoid := none, exprMgr := none }

/-- Two overlapping model loads, both of which succeed. -/
def overlapTrace : List VEvent :=
  [VEvent.loadStart "a.vrm", VEvent.loadStart "b.vrm",
   VEvent.loadOk model1, VEvent.loadOk model2]

/-- Counterexample to claim C4 as stated: the trace in which a second
`loadVRM` is issued while the first load is still pending is possible (each
callback fires for a pending load), yet it ends with two models in the scene:
the success callback never removes a model installed by a competing load, so
"at most one active model at any time" fails. -/
theorem C4_counterexample :
    validTraceB sysInit overlapTrace = true ∧
    (runTrace sysInit overlapTrace).vs.sceneModels.length = 2 ∧
    ¬ ((runTrace sysInit overlapTrace).vs.sceneModels.length ≤ 1) := by
  refine ⟨by decide, by decide, by decide⟩

/-- Claim C4 (amended): provided model loads never overlap (a `loadVRM` is
only issued once no model load is pending), every reachable state has at most
one model in the scene; the mechanism is simple replacement: on a nonempty
url `loadVRM` nulls `currentVrm`, and with a model loaded `playAnimation`
nulls the previous active action before attaching a new one. With overlapping
loads two models can be in the scene at once. -/
theorem C4_single_model_sequential (tr : List VEvent)
    (hseq : seqTraceB sysInit tr = true) :
    (runTrace sysInit tr).vs.sceneModels.length ≤ 1 ∧
    (∀ st : ViewerState, ∀ url : String, ¬ (url = "") →
      (loadVRMStartV st url).currentVrm = none) ∧
    (∀ st : ViewerState, ∀ url : String,
      st.currentVrm.isSome = true → ¬ (url = "") →
      (playAnimationStartV st url).activeAction = none) := by
  refine ⟨?_, ?_, ?_⟩
  · have hinv := seqTraceB_Inv4 tr sysInit sysInit_Inv4 hseq
    rw [hinv.2.2]
    cases (runTrace sysInit tr).vs.currentVrm <;> simp [sceneOf]
  · intro st url hu
    have hu2 : (url == "") = false := by
      simp [hu]
    cases h : st.currentVrm with
    | none => simp [loadVRMStartV, hu2, h, resetExpressionsV]
    | some vrm => simp [loadVRMStartV, hu2, h, resetExpressionsV]
  · intro st url hs hu
    have hg : (st.currentVrm.isNone || url == "") = false := by
      simp [hu]
      simpa [Option.isNone_iff_eq_none, Option.isSome_iff_exists] using hs
    simp [playAnimationStartV, hg]

/-- A sequential trace: the first load settles before the second is issued. -/
def seqTrace4 : List VEvent :=
  [VEvent.loadStart "a.vrm", VEvent.loadOk model1,
   VEvent.loadStart "b.vrm", VEvent.loadOk model2]

theorem C4_single_model_sequential_witness :
    seqTraceB sysInit seqTrace4 = true ∧
    (runTrace sysInit seqTrace4).vs.sceneModels.length ≤ 1 :=
  ⟨by decide, (C4_single_model_sequential seqTrace4 (by decide)).1⟩

/- ## C8: what loadVRM actually resets before the load begins -/

def exVrm8 : VrmModel := { id := 3, humanoid := none, exprMgr := some [("happy", 1)] }

def exSt8 : ViewerState :=
  { currentVrm := some exVrm8, mixer := true, activeAction := none, sceneModels := [3],
    error := "", isLoading := false, activeExpression := "happy" }

/-- Counterexample to claim C8 as stated: `loadVRM` calls `resetExpressions`
only after `currentVrm` has been nulled, so the guard makes it a no-op: on a
state whose active expression is `happy`, the expression state is not reset —
`activeExpression` is still `happy` afterwards instead of being cleared. -/
theorem C8_counterexample :
    (loadVRMStartV exSt8 "m.vrm").activeExpression = "happy" ∧
    ¬ ((loadVRMStartV exSt8 "m.vrm").activeExpression = "") := by
  refine ⟨by decide, by decide⟩

/-- Claim C8 (amended): `loadVRM` with a nonempty url removes the previous
model from the scene, nulls it, and resets mixer and active action before the
asynchronous load begins; the `resetExpressions` call it then makes is a
no-op (the model is already cleared), so the active-expression state keeps
its old value; if the load subsequently fails or yields no VRM data, the
viewer is left with no active model rather than the previous one. -/
theorem C8_model_replacement (st : ViewerState) (url : String) (vrm : VrmModel)
    (f : LoadFailure) (h1 : ¬ (url = "")) (h2 : st.currentVrm = some vrm) :
    (loadVRMStartV st url).currentVrm = none ∧
    (loadVRMStartV st url).sceneModels = st.sceneModels.erase vrm.id ∧
    (loadVRMStartV st url).mixer = false ∧
    (loadVRMStartV st url).activeAction = none ∧
    (loadVRMStartV st url).isLoading = true ∧
    (loadVRMStartV st url).error = "" ∧
    (loadVRMStartV st url).activeExpression = st.activeExpression ∧
    (onVrmLoadError (loadVRMStartV st url) f).currentVrm = none ∧
    (onVrmLoaded (loadVRMStartV st url) none).currentVrm = none := by
  have hu2 : (url == "") = false := by
    simp [h1]
  have hstep : loadVRMStartV st url =
      { st with isLoading := true, error := "", sceneModels := st.sceneModels.erase vrm.id,
                currentVrm := none, mixer := false, activeAction := none } := by
    simp [loadVRMStartV, hu2, h2, resetExpressionsV]
  rw [hstep]
  exact ⟨rfl, rfl, rfl, rfl, rfl, rfl, rfl, rfl, rfl⟩

theorem C8_model_replacement_witness :
    exSt8.currentVrm = some exVrm8 ∧
    (loadVRMStartV exSt8 "m.vrm").currentVrm = none ∧
    (loadVRMStartV exSt8 "m.vrm").sceneModels = exSt8.sceneModels.erase exVrm8.id ∧
    (onVrmLoadError (loadVRMStartV exSt8 "m.vrm") LoadFailure.other).currentVrm = none :=
  ⟨rfl,
    (C8_model_replacement exSt8 "m.vrm" exVrm8 LoadFailure.other (by decide) rfl).1,
    (C8_model_replacement exSt8 "m.vrm" exVrm8 LoadFailure.other (by decide) rfl).2.1,
    (C8_model_replacement exSt8 "m.vrm" exVrm8 LoadFailure.other (by decide)
      rfl).2.2.2.2.2.2.2.1⟩

end MRehab
